import Mathlib

/-!
# Verification of the spaced-repetition review engine (`src/app.py`)

This file gives a shallow embedding of the scheduling core of the
`ReviewSystem` class in `src/app.py` and proves (or refutes) the spec's
claims about it.

Modelling conventions:

* Python floats are modelled as exact rationals `ℚ`; decimal literals such
  as `0.1`, `1.2`, `0.95` denote the corresponding exact rationals.
  Overflow and rounding of IEEE doubles are not modelled; the non-finite
  values (NaN/∞) that the priority pipeline guards against are modelled
  explicitly by the type `FVal` below.
* The constant `np.exp(-0.1)` (line 397) is transcendental, so the update
  rule is parametrised by `decay : ℚ` standing for that float constant
  (`≈ 0.9048374180359595`); theorems that need facts about it assume only
  `0 < decay` and `decay ≤ 1`, which hold for it.
* Timestamps in the scheduler are rationals, counted in seconds
  (`datetime` subtraction `.total_seconds()` and `timedelta(days=d)` become
  subtraction and `d * 86400`).  The persistence layer, where the ISO-8601
  text form matters, models `datetime` as a record of calendar fields.
* Python dicts keyed by strings become association lists; assignment
  `d[k] = v` replaces the value of an existing key in place and appends a
  new key at the end, exactly as `dictInsert` does.
-/

/-- Python `dict` lookup `d.get(k)` on an association list. -/
def dictLookup {α : Type} (k : String) : List (String × α) → Option α
  | [] => Option.none
  | (k', v) :: l => if k' = k then some v else dictLookup k l

/-- Python `dict` assignment `d[k] = v`: replace the value of an existing
key, or append the binding when the key is unseen. -/
def dictInsert {α : Type} (k : String) (v : α) : List (String × α) → List (String × α)
  | [] => [(k, v)]
  | (k', v') :: l => if k' = k then (k', v) :: l else (k', v') :: dictInsert k v l

theorem dictLookup_insert_self {α : Type} (k : String) (v : α) (l : List (String × α)) :
    dictLookup k (dictInsert k v l) = some v := by
  induction l with
  | nil => simp [dictInsert, dictLookup]
  | cons p l ih =>
    by_cases h : p.1 = k
    · simp [dictInsert, dictLookup, h]
    · simp [dictInsert, dictLookup, h, ih]

theorem dictLookup_insert_ne {α : Type} (k k' : String) (v : α) (l : List (String × α))
    (h : k' ≠ k) : dictLookup k' (dictInsert k v l) = dictLookup k' l := by
  have hkk : ¬k = k' := fun e => h e.symm
  induction l with
  | nil => simp [dictInsert, dictLookup, hkk]
  | cons p l ih =>
    by_cases hp : p.1 = k
    · rw [dictInsert, if_pos hp, dictLookup, dictLookup]
      rw [hp, if_neg hkk, if_neg hkk]
    · rw [dictInsert, if_neg hp, dictLookup, dictLookup]
      by_cases hp' : p.1 = k'
      · rw [if_pos hp', if_pos hp']
      · rw [if_neg hp', if_neg hp', ih]

theorem dictInsert_forall {α : Type} {P : α → Prop} {l : List (String × α)} {k : String} {v : α}
    (hl : ∀ p ∈ l, P p.2) (hv : P v) : ∀ p ∈ dictInsert k v l, P p.2 := by
  induction l with
  | nil =>
    intro p hp
    rw [dictInsert, List.mem_singleton] at hp
    simpa [hp] using hv
  | cons q l ih =>
    intro p hp
    by_cases hq : q.1 = k
    · rw [dictInsert, if_pos hq, List.mem_cons] at hp
      rcases hp with hp | hp
      · simpa [hp] using hv
      · exact hl p (List.mem_cons_of_mem _ hp)
    · rw [dictInsert, if_neg hq, List.mem_cons] at hp
      rcases hp with hp | hp
      · exact hl p (by simp [hp])
      · exact ih (fun r hr => hl r (List.mem_cons_of_mem _ hr)) p hp

theorem dictLookup_forall {α : Type} {P : α → Prop} {l : List (String × α)} {k : String} {v : α}
    (hl : ∀ p ∈ l, P p.2) (h : dictLookup k l = some v) : P v := by
  induction l with
  | nil => simp [dictLookup] at h
  | cons q l ih =>
    rw [dictLookup] at h
    by_cases hq : q.1 = k
    · rw [if_pos hq] at h
      cases h
      exact hl q (by simp)
    · rw [if_neg hq] at h
      exact ih (fun r hr => hl r (List.mem_cons_of_mem _ hr)) h

/-!
## Scheduler state

`ReviewSystem` keeps three parallel string-keyed dicts (`self.weights`,
`self.last_reviewed`, `self.review_intervals`, lines 36–38).  A last-reviewed
entry is either a timestamp or Python `None` (`Option ℚ`).
-/

structure SchedState where
  weights : List (String × ℚ)
  last_reviewed : List (String × Option ℚ)
  review_intervals : List (String × ℚ)

/-- The familiarity-dependent weight factor of `update_weight`
(lines 392–411), before the final clamp: `familiar` multiplies by the
`np.exp(-0.1)` constant (modelled by `decay`), `blur` by `0.95`, `strange`
takes `min(10.0, weight * 1.5)`, anything else multiplies by `0.9`. -/
def raw_new_weight (decay : ℚ) (familiarity : String) (w : ℚ) : ℚ :=
  if familiarity = "familiar" then w * decay
  else if familiarity = "blur" then w * 0.95
  else if familiarity = "strange" then min 10 (w * 1.5)
  else w * 0.9

/-- The familiarity-dependent interval update of `update_weight`
(lines 392–406): `familiar` → `min(30.0, i * 2.0)`, `blur` → `max(1.0, i * 1.2)`,
`strange` → `max(0.1, i * 0.5)`, anything else leaves the interval alone. -/
def new_interval (familiarity : String) (i : ℚ) : ℚ :=
  if familiarity = "familiar" then min 30 (i * 2)
  else if familiarity = "blur" then max 1 (i * 1.2)
  else if familiarity = "strange" then max 0.1 (i * 0.5)
  else i

/-- The final clamp of `update_weight` (line 414):
`weights[k] = max(0.1, min(10.0, weights[k]))`. -/
def clamp_weight (w : ℚ) : ℚ := max 0.1 (min 10 w)

/-- `ReviewSystem.update_weight` (lines 372–417).  Missing keys are first
defaulted to weight `1.0` / interval `1.0` (lines 380–385), so the net
effect is to read the current entry with those defaults, store the branch
results, and set the key's last-reviewed time to `current_time`
(line 389).  The trailing `save_weights()` call (line 417) performs I/O
only and does not change the in-memory maps. -/
def update_weight (decay : ℚ) (st : SchedState) (image_key : String) (familiarity : String)
    (current_time : ℚ) : SchedState :=
  let weight := (dictLookup image_key st.weights).getD 1
  let interval := (dictLookup image_key st.review_intervals).getD 1
  { weights := dictInsert image_key (clamp_weight (raw_new_weight decay familiarity weight)) st.weights
    last_reviewed := dictInsert image_key (some current_time) st.last_reviewed
    review_intervals := dictInsert image_key (new_interval familiarity interval) st.review_intervals }

/-!
## C1: the deterministic update table
-/

/-- The stored weight according to the spec's update table: apply the
per-label rule, then clamp to `[0.1, 10.0]`. -/
def spec_stored_weight (decay : ℚ) (feedback : String) (w : ℚ) : ℚ :=
  max 0.1 (min 10
    (if feedback = "familiar" then w * decay
     else if feedback = "blur" then w * 0.95
     else if feedback = "strange" then min 10 (w * 1.5)
     else w * 0.9))

/-- The stored interval according to the spec's update table. -/
def spec_stored_interval (feedback : String) (i : ℚ) : ℚ :=
  if feedback = "familiar" then min 30 (i * 2)
  else if feedback = "blur" then max 1 (i * 1.2)
  else if feedback = "strange" then max 0.1 (i * 0.5)
  else i

/-- C1: for every item state and every feedback label, `update_weight`
applies exactly the deterministic table: `familiar` sets
`interval = min(30, i*2)` and multiplies the weight by the `exp(-0.1)`
constant; `blur` sets `interval = max(1, i*1.2)` and multiplies the weight
by `0.95`; `strange` sets `interval = max(0.1, i*0.5)` and the weight to
`min(10, w*1.5)`; any other label leaves the interval unchanged and
multiplies the weight by `0.9`; the weight is then clamped to
`[0.1, 10.0]` and the key's last-reviewed time becomes the current time. -/
theorem c1_update_table (decay : ℚ) (st : SchedState) (k feedback : String) (now : ℚ) :
    dictLookup k (update_weight decay st k feedback now).weights
        = some (spec_stored_weight decay feedback ((dictLookup k st.weights).getD 1))
    ∧ dictLookup k (update_weight decay st k feedback now).last_reviewed = some (some now)
    ∧ dictLookup k (update_weight decay st k feedback now).review_intervals
        = some (spec_stored_interval feedback ((dictLookup k st.review_intervals).getD 1)) := by
  refine ⟨?_, ?_, ?_⟩
  · rw [update_weight]
    rw [dictLookup_insert_self]
    rw [spec_stored_weight, clamp_weight, raw_new_weight]
  · rw [update_weight]
    rw [dictLookup_insert_self]
  · rw [update_weight]
    rw [dictLookup_insert_self]
    rw [spec_stored_interval, new_interval]

/-!
## C2: range invariants

The claim asserts `weight ∈ [0.1, 10.0]` and `interval ∈ [0.1, 30.0]` after
every mutation, including the raw set-weight API path.  Both parts fail on the
code: the `blur` branch computes `max(1.0, interval * 1.2)` with no upper
clamp (line 401), so an in-range interval of `30` becomes `36`; and the raw
set-weight path (`api_update_weight`, line 585) stores the client-supplied
float with no clamp at all.
-/

/-- The raw set-weight path of `api_update_weight` (lines 583–586):
`review_system.weights[image_key] = float(weight)` followed by a save; no
clamping, and the other two maps are untouched. -/
def set_raw_weight (st : SchedState) (image_key : String) (v : ℚ) : SchedState :=
  { st with weights := dictInsert image_key v st.weights }

/-- A state with every field of the single item `"S000/a"` inside the claimed
ranges (weight `1`, never reviewed, interval `30`). -/
def c2_state : SchedState :=
  { weights := [("S000/a", 1)]
    last_reviewed := [("S000/a", Option.none)]
    review_intervals := [("S000/a", 30)] }

/-- Counterexample to C2: from the in-range state `c2_state`, a `blur`
feedback stores interval `36 > 30`, and the raw set-weight path stores
weight `50 > 10`; so the claimed invariants do not hold after every
mutation. -/
theorem c2_counterexample :
    dictLookup "S000/a" (update_weight 0.9 c2_state "S000/a" "blur" 0).review_intervals
        = some 36
    ∧ ¬((36 : ℚ) ≤ 30)
    ∧ dictLookup "S000/a" (set_raw_weight c2_state "S000/a" 50).weights = some 50
    ∧ ¬((50 : ℚ) ≤ 10) := by
  refine ⟨?_, by norm_num, ?_, by norm_num⟩
  · rw [update_weight, dictLookup_insert_self, new_interval,
      if_neg (show ¬"blur" = "familiar" by decide), if_pos rfl]
    norm_num [c2_state, dictLookup]
  · rw [set_raw_weight]
    exact dictLookup_insert_self _ _ _

/-- Weights in the claimed range `[0.1, 10.0]`. -/
abbrev WeightsInRange (st : SchedState) : Prop :=
  ∀ p ∈ st.weights, (0.1 : ℚ) ≤ p.2 ∧ p.2 ≤ 10

/-- Intervals bounded below by `0.1`. -/
abbrev IntervalsLB (st : SchedState) : Prop :=
  ∀ p ∈ st.review_intervals, (0.1 : ℚ) ≤ p.2

theorem clamp_weight_mem (w : ℚ) : (0.1 : ℚ) ≤ clamp_weight w ∧ clamp_weight w ≤ 10 := by
  constructor
  · exact le_max_left _ _
  · exact max_le (by norm_num) (min_le_left _ _)

theorem new_interval_lb (f : String) (i : ℚ) (hi : (0.1 : ℚ) ≤ i) :
    (0.1 : ℚ) ≤ new_interval f i := by
  rw [new_interval]
  split_ifs
  · exact le_min (by norm_num) (by linarith)
  · exact le_trans (by norm_num) (le_max_left _ _)
  · exact le_max_left _ _
  · exact hi

theorem update_weight_preserves (decay : ℚ) (st : SchedState) (k f : String) (now : ℚ)
    (hw : WeightsInRange st) (hi : IntervalsLB st) :
    WeightsInRange (update_weight decay st k f now)
    ∧ IntervalsLB (update_weight decay st k f now) := by
  constructor
  · exact dictInsert_forall (P := fun w => (0.1 : ℚ) ≤ w ∧ w ≤ 10) hw (clamp_weight_mem _)
  · refine dictInsert_forall (P := fun i => (0.1 : ℚ) ≤ i) hi (new_interval_lb _ _ ?_)
    rcases h : dictLookup k st.review_intervals with _ | v
    · norm_num
    · simpa using dictLookup_forall (P := fun i => (0.1 : ℚ) ≤ i) hi h

/-- Fold a sequence of `(key, feedback, time)` calls through `update_weight`,
modelling successive `recordFeedback` requests. -/
def run_feedbacks (decay : ℚ) (st : SchedState) : List (String × String × ℚ) → SchedState
  | [] => st
  | (k, f, t) :: rest => run_feedbacks decay (update_weight decay st k f t) rest

/-- C2 (amended): for every sequence of `recordFeedback` calls starting from
a state whose weights lie in `[0.1, 10.0]` and whose intervals are `≥ 0.1`,
every weight stays in `[0.1, 10.0]` and every interval stays `≥ 0.1`.  The
claimed upper bound `interval ≤ 30` is not an invariant (see
`c2_counterexample`: `blur` has no upper clamp), and the raw set-weight path
clamps nothing. -/
theorem c2_amended (decay : ℚ) (st : SchedState) (seq : List (String × String × ℚ))
    (hw : WeightsInRange st) (hi : IntervalsLB st) :
    WeightsInRange (run_feedbacks decay st seq) ∧ IntervalsLB (run_feedbacks decay st seq) := by
  induction seq generalizing st with
  | nil => exact ⟨hw, hi⟩
  | cons step rest ih =>
    rcases step with ⟨k, f, t⟩
    rw [run_feedbacks]
    have h := update_weight_preserves decay st k f t hw hi
    exact ih _ h.1 h.2

/-- Witness for `c2_amended` at a concrete in-range state and a concrete
two-call sequence. -/
theorem c2_witness :
    WeightsInRange (run_feedbacks 0.9 c2_state [("S000/a", "familiar", 100), ("S000/a", "strange", 200)])
    ∧ IntervalsLB (run_feedbacks 0.9 c2_state [("S000/a", "familiar", 100), ("S000/a", "strange", 200)]) :=
  c2_amended 0.9 c2_state [("S000/a", "familiar", 100), ("S000/a", "strange", 200)]
    (by intro p hp
        simp only [c2_state] at hp
        rw [List.mem_singleton] at hp
        subst hp
        norm_num)
    (by intro p hp
        simp only [c2_state] at hp
        rw [List.mem_singleton] at hp
        subst hp
        norm_num)

/-!
## C8: feedback monotonicity
-/

/-- C8: for every starting weight in `[0.1, 10.0]` (and with `decay`
standing for the positive constant `np.exp(-0.1) < 1`): a `familiar`
feedback never increases the stored weight, a `strange` feedback never
decreases it, a `blur` feedback leaves the stored weight in
`[0.95 * prior, prior]`, and any unknown label multiplies the weight by
exactly `0.9` before the final clamp. -/
theorem c8_monotonicity (decay w : ℚ) (hd0 : 0 < decay) (hd1 : decay ≤ 1)
    (hw1 : (0.1 : ℚ) ≤ w) (hw2 : w ≤ 10) :
    clamp_weight (raw_new_weight decay "familiar" w) ≤ w
    ∧ w ≤ clamp_weight (raw_new_weight decay "strange" w)
    ∧ ((0.95 : ℚ) * w ≤ clamp_weight (raw_new_weight decay "blur" w)
        ∧ clamp_weight (raw_new_weight decay "blur" w) ≤ w)
    ∧ (∀ f, f ≠ "familiar" → f ≠ "blur" → f ≠ "strange" →
        raw_new_weight decay f w = w * 0.9) := by
  have hw0 : (0 : ℚ) ≤ w := by linarith
  refine ⟨?_, ?_, ⟨?_, ?_⟩, ?_⟩
  · rw [raw_new_weight, if_pos rfl, clamp_weight]
    exact max_le hw1 (le_trans (min_le_right _ _) (mul_le_of_le_one_right hw0 hd1))
  · rw [raw_new_weight, if_neg (show ¬"strange" = "familiar" by decide),
      if_neg (show ¬"strange" = "blur" by decide), if_pos rfl, clamp_weight]
    refine le_trans ?_ (le_max_right _ _)
    exact le_min hw2 (le_min hw2 (by linarith))
  · rw [raw_new_weight, if_neg (show ¬"blur" = "familiar" by decide), if_pos rfl, clamp_weight]
    refine le_trans ?_ (le_max_right _ _)
    exact le_min (by linarith) (by linarith)
  · rw [raw_new_weight, if_neg (show ¬"blur" = "familiar" by decide), if_pos rfl, clamp_weight]
    exact max_le hw1 (le_trans (min_le_right _ _) (by linarith))
  · intro f h1 h2 h3
    rw [raw_new_weight, if_neg h1, if_neg h2, if_neg h3]

/-- Witness for `c8_monotonicity` at `decay = 0.9`, `w = 1`, unknown label
`"x"`. -/
theorem c8_witness :
    clamp_weight (raw_new_weight 0.9 "familiar" 1) ≤ 1
    ∧ (1 : ℚ) ≤ clamp_weight (raw_new_weight 0.9 "strange" 1)
    ∧ ((0.95 : ℚ) * 1 ≤ clamp_weight (raw_new_weight 0.9 "blur" 1)
        ∧ clamp_weight (raw_new_weight 0.9 "blur" 1) ≤ 1)
    ∧ raw_new_weight 0.9 "x" 1 = 1 * 0.9 := by
  obtain ⟨h1, h2, h3, h4⟩ :=
    c8_monotonicity 0.9 1 (by norm_num) (by norm_num) (by norm_num) (by norm_num)
  exact ⟨h1, h2, h3, h4 "x" (by decide) (by decide) (by decide)⟩

/-!
## C3: the priority formula

`select_images_for_review` (lines 436–470) computes one priority per image
from its `(weight, last_reviewed, review_interval)` entry and the current
time.  Times are rationals in seconds; `timedelta(days=d)` is `d * 86400`
seconds and `.total_seconds()` of a difference is plain subtraction.
-/

/-- The per-item priority computation of `select_images_for_review`
(lines 447–464): `1000000` when never reviewed; otherwise with
`time_until_review = (last_reviewed + interval days) - now` in seconds,
overdue items get `|time_until_review| + weight * 1000` and not-yet-due
items get `weight * 1000 / max(0.1, time_until_review / 3600)`. -/
def compute_priority (weight : ℚ) (last_reviewed : Option ℚ) (review_interval : ℚ)
    (now : ℚ) : ℚ :=
  match last_reviewed with
  | Option.none => 1000000
  | some t =>
    let time_until_review := t + review_interval * 86400 - now
    if time_until_review ≤ 0 then |time_until_review| + weight * 1000
    else weight * 1000 / max 0.1 (time_until_review / 3600)

/-- The claim's priority formula, stated in the spec's orientation:
`1_000_000` for never-reviewed; otherwise `|secondsUntilDue| + weight*1000`
when `secondsUntilDue ≤ 0`, and `weight*1000 / max(0.1, secondsUntilDue/3600)`
when `secondsUntilDue > 0`. -/
def spec_priority (weight : ℚ) (last_reviewed : Option ℚ) (review_interval : ℚ)
    (now : ℚ) : ℚ :=
  match last_reviewed with
  | Option.none => 1000000
  | some t =>
    let secondsUntilDue := t + review_interval * 86400 - now
    if secondsUntilDue > 0 then weight * 1000 / max 0.1 (secondsUntilDue / 3600)
    else |secondsUntilDue| + weight * 1000

/-- C3: the priority computed by `select_images_for_review` agrees with the
spec's formula for every weight, last-reviewed value, interval and current
time. -/
theorem c3_priority_formula (weight : ℚ) (last_reviewed : Option ℚ)
    (review_interval : ℚ) (now : ℚ) :
    compute_priority weight last_reviewed review_interval now
      = spec_priority weight last_reviewed review_interval now := by
  rcases last_reviewed with _ | t
  · rfl
  · rw [compute_priority, spec_priority]
    by_cases h : t + review_interval * 86400 - now ≤ 0
    · rw [if_pos h, if_neg (not_lt.mpr h)]
    · rw [if_neg h, if_pos (lt_of_not_le h)]

/-!
## Float values and the probability pipeline (C5)

The normalization code (lines 466–489) guards against non-finite floats.
`FVal` models a float as either a finite exact rational or `nan`
(standing for NaN or ±∞, which the code only ever inspects through
`np.isfinite`); arithmetic propagates `nan`, and dividing by zero produces
`nan`.
-/

inductive FVal where
  | fin (q : ℚ)
  | nan
deriving DecidableEq

/-- `np.isfinite`. -/
def FVal.isfinite : FVal → Bool
  | .fin _ => true
  | .nan => false

/-- Float addition: any non-finite operand contaminates the result. -/
def FVal.add : FVal → FVal → FVal
  | .fin a, .fin b => .fin (a + b)
  | _, _ => .nan

/-- Float division: division by zero gives a non-finite result (±∞ or NaN),
and non-finite operands propagate. -/
def FVal.div : FVal → FVal → FVal
  | .fin a, .fin b => if b = 0 then .nan else .fin (a / b)
  | _, _ => .nan

/-- Python `sum(...)`: a left fold of `+` starting from `0`. -/
def fsum (l : List FVal) : FVal := l.foldl FVal.add (.fin 0)

/-- The test `total_priority > 0 and np.isfinite(total_priority)` of
line 474.  (A NaN comparison is false; `+∞ > 0` is true in floats but its
`isfinite` conjunct is false, so mapping both to `false` here is exact for
the conjunction.) -/
def FVal.posFinite : FVal → Bool
  | .fin q => decide (0 < q)
  | .nan => false

/-- The per-priority guard of lines 467–468: a non-finite priority is
replaced by `1.0`. -/
def sanitize_priority (p : FVal) : FVal := if p.isfinite then p else .fin 1

/-- The uniform fallback `[1.0 / n] * n` (lines 478 and 486). -/
def uniform_probs (n : ℕ) : List FVal := List.replicate n (.fin (1 / (n : ℚ)))

/-- Line 481: `p if np.isfinite(p) else 0`. -/
def rezero (probs : List FVal) : List FVal :=
  probs.map (fun p => if p.isfinite then p else .fin 0)

/-- Lines 480–489: re-zero non-finite entries, then if their sum is zero
fall back to uniform, else divide by the sum. -/
def second_normalization (probabilities : List FVal) : List FVal :=
  if fsum (rezero probabilities) = .fin 0 then uniform_probs (rezero probabilities).length
  else (rezero probabilities).map (fun p => p.div (fsum (rezero probabilities)))

/-- Lines 472–489 applied to the already-sanitized priority list: normalize
by the total when it is positive and finite, otherwise distribute
uniformly; then apply the second normalization pass. -/
def normalize_probabilities (priorities : List FVal) : List FVal :=
  second_normalization
    (if (fsum priorities).posFinite then priorities.map (fun p => p.div (fsum priorities))
     else uniform_probs priorities.length)

/-- The whole pipeline from raw computed priorities to the probability
vector handed to `np.random.choice`: per-priority sanitization (lines
467–468) followed by normalization (lines 472–489). -/
def compute_probabilities (raw : List FVal) : List FVal :=
  normalize_probabilities (raw.map sanitize_priority)

/-!
## C5: the normalization claim

The claim says the uniform fallback triggers when the priority sum is
"zero or non-finite".  The code's test (line 474) is
`total_priority > 0 and np.isfinite(total_priority)`: a finite but
*negative* sum (reachable, since weights loaded from the JSON file or set
through the raw set-weight path are not validated and a negative weight
makes `|s| + weight * 1000` negative) also falls back to uniform, while
the claim would have it normalized by the sum.
-/

/-- The claim's normalization, word for word: sanitize each priority, then
`p_i = priority_i / sum`, falling back to uniform only when the sum is zero
or non-finite; then the same second pass as the code. -/
def spec_probabilities_claim (raw : List FVal) : List FVal :=
  second_normalization
    (if fsum (raw.map sanitize_priority) = .fin 0
        ∨ (fsum (raw.map sanitize_priority)).isfinite = false
     then uniform_probs (raw.map sanitize_priority).length
     else (raw.map sanitize_priority).map
       (fun p => p.div (fsum (raw.map sanitize_priority))))

/-- A finite negative float value. -/
def FVal.isNeg : FVal → Bool
  | .fin q => decide (q < 0)
  | .nan => false

/-- The amended normalization: the uniform fallback triggers whenever the
sum is zero, *negative*, or non-finite (equivalently: unless the sum is a
positive finite number). -/
def spec_probabilities_amended (raw : List FVal) : List FVal :=
  second_normalization
    (if fsum (raw.map sanitize_priority) = .fin 0
        ∨ (fsum (raw.map sanitize_priority)).isNeg = true
        ∨ (fsum (raw.map sanitize_priority)).isfinite = false
     then uniform_probs (raw.map sanitize_priority).length
     else (raw.map sanitize_priority).map
       (fun p => p.div (fsum (raw.map sanitize_priority))))

/-- Counterexample to C5: on the (finite, nonzero, negative-sum) priority
list `[-500, -2500]` the code's pipeline falls back to the uniform
distribution `[1/2, 1/2]`, while the claim's rule normalizes by the sum and
yields `[1/6, 5/6]`. -/
theorem c5_counterexample :
    compute_probabilities [.fin (-500), .fin (-2500)] = [.fin (1/2), .fin (1/2)]
    ∧ spec_probabilities_claim [.fin (-500), .fin (-2500)] = [.fin (1/6), .fin (5/6)]
    ∧ compute_probabilities [.fin (-500), .fin (-2500)]
        ≠ spec_probabilities_claim [.fin (-500), .fin (-2500)] := by
  have h1 : compute_probabilities [.fin (-500), .fin (-2500)] = [.fin (1/2), .fin (1/2)] := by
    rw [compute_probabilities, normalize_probabilities]
    norm_num [List.map, sanitize_priority, FVal.isfinite, fsum, List.foldl, FVal.add,
      FVal.posFinite, uniform_probs, second_normalization, rezero, List.replicate, FVal.div]
  have h2 : spec_probabilities_claim [.fin (-500), .fin (-2500)] = [.fin (1/6), .fin (5/6)] := by
    rw [spec_probabilities_claim]
    norm_num [List.map, sanitize_priority, FVal.isfinite, fsum, List.foldl, FVal.add,
      second_normalization, rezero, FVal.div]
  refine ⟨h1, h2, ?_⟩
  rw [h1, h2]
  intro h
  have := List.head_eq_of_cons_eq h
  rw [FVal.fin.injEq] at this
  norm_num at this

/-- C5 (amended): the pipeline replaces each non-finite priority by `1.0`
and falls back to the uniform distribution exactly when the priority sum is
zero, negative, or non-finite — i.e. unless the sum is a positive finite
number — and otherwise divides by the sum; the second pass (re-zeroing
non-finite entries, re-normalizing, uniform on a zero second sum) is as the
claim states.  The result is always a plain list handed back to the caller:
degeneracies never escape. -/
theorem c5_amended_normalization (raw : List FVal) :
    compute_probabilities raw = spec_probabilities_amended raw := by
  rw [compute_probabilities, normalize_probabilities, spec_probabilities_amended]
  congr 1
  rcases h : fsum (raw.map sanitize_priority) with q | _
  · rcases lt_trichotomy q 0 with hq | hq | hq
    · rw [if_neg, if_pos]
      · exact Or.inr (Or.inl (by simp [FVal.isNeg, hq]))
      · simp [FVal.posFinite]
        linarith
    · subst hq
      rw [if_neg, if_pos (Or.inl rfl)]
      simp [FVal.posFinite]
    · rw [if_pos (by simp [FVal.posFinite, hq]), if_neg]
      simp [FVal.isNeg, FVal.isfinite]
      constructor
      · intro e
        rw [e] at hq
        exact lt_irrefl 0 hq
      · linarith
  · rw [if_neg, if_pos (Or.inr (Or.inr (by simp [FVal.isfinite])))]
    simp [FVal.posFinite]

/-!
## C4: selection shape

`select_images_for_review` (lines 419–499) computes the probability vector
and then draws `min(count, len(images))` distinct indices via
`np.random.choice(len(images), size=min(count, len(images)), replace=False,
p=probabilities)`.  The random draw is modelled by a parameter
`sel : List (Fin images.length)`; `ValidDraw` captures what
`np.random.choice` guarantees of its output: exactly
`min(count, len(images))` indices, all distinct.
-/

/-- The raw priority list of `select_images_for_review` (lines 436–470):
one sanitized priority per image, read from the three maps with the
defaults `weight = 1.0`, `last_reviewed = None`, `interval = 1.0`. -/
def select_priorities (st : SchedState) (images : List String) (now : ℚ) : List FVal :=
  (images.map (fun img =>
    FVal.fin (compute_priority ((dictLookup img st.weights).getD 1)
      ((dictLookup img st.last_reviewed).getD Option.none)
      ((dictLookup img st.review_intervals).getD 1) now))).map sanitize_priority

/-- The probability vector handed to `np.random.choice` (lines 472–489). -/
def select_probabilities (st : SchedState) (images : List String) (now : ℚ) : List FVal :=
  normalize_probabilities (select_priorities st images now)

/-- What `np.random.choice(len(images), size=min(count, len(images)),
replace=False, p=...)` guarantees of its output. -/
def ValidDraw (images : List String) (count : ℕ) (sel : List (Fin images.length)) : Prop :=
  sel.length = min count images.length ∧ sel.Nodup

/-- `ReviewSystem.select_images_for_review` (lines 419–499) with the random
draw abstracted into `sel`: return `[]` for an empty image list (line 434),
otherwise the images at the drawn indices, in draw order (line 499). -/
def select_images_for_review (st : SchedState) (images : List String) (count : ℕ) (now : ℚ)
    (sel : List (Fin images.length)) : List String :=
  let _probabilities := select_probabilities st images now
  if images.isEmpty then [] else sel.map images.get

/-- C4: for every key list and count, the selection returns exactly
`min(count, len(images))` items, all distinct (for duplicate-free inputs)
and all members of the input list; and on an empty input list the result is
`[]` for any count. -/
theorem c4_selection_shape (st : SchedState) (images : List String) (count : ℕ) (now : ℚ)
    (sel : List (Fin images.length)) (hnd : images.Nodup)
    (hsel : ValidDraw images count sel) :
    (select_images_for_review st images count now sel).length = min count images.length
    ∧ (select_images_for_review st images count now sel).Nodup
    ∧ (∀ x ∈ select_images_for_review st images count now sel, x ∈ images)
    ∧ (∀ (st' : SchedState) (count' : ℕ) (now' : ℚ)
        (sel' : List (Fin (List.length ([] : List String)))),
        select_images_for_review st' [] count' now' sel' = []) := by
  obtain ⟨hlen, hdup⟩ := hsel
  by_cases hempty : images.isEmpty
  · rw [List.isEmpty_iff] at hempty
    subst hempty
    refine ⟨?_, ?_, ?_, fun _ _ _ _ => rfl⟩
    · simp [select_images_for_review]
    · simp [select_images_for_review]
    · simp [select_images_for_review]
  · have hsel_eq : select_images_for_review st images count now sel = sel.map images.get := by
      rw [select_images_for_review]
      simp [hempty]
    refine ⟨?_, ?_, ?_, fun _ _ _ _ => rfl⟩
    · rw [hsel_eq, List.length_map, hlen]
    · rw [hsel_eq]
      exact hdup.map (List.nodup_iff_injective_get.mp hnd)
    · intro x hx
      rw [hsel_eq, List.mem_map] at hx
      obtain ⟨i, _, hi⟩ := hx
      rw [← hi]
      exact List.get_mem _ _ _

/-- Witness for `c4_selection_shape`: three images, count `2`, a concrete
valid draw. -/
theorem c4_witness :
    (select_images_for_review ⟨[], [], []⟩ ["a", "b", "c"] 2 0
        [⟨2, by decide⟩, ⟨0, by decide⟩]).length = min 2 (["a", "b", "c"].length)
    ∧ (select_images_for_review ⟨[], [], []⟩ ["a", "b", "c"] 2 0
        [⟨2, by decide⟩, ⟨0, by decide⟩]).Nodup
    ∧ (∀ x ∈ select_images_for_review ⟨[], [], []⟩ ["a", "b", "c"] 2 0
        [⟨2, by decide⟩, ⟨0, by decide⟩], x ∈ ["a", "b", "c"])
    ∧ (∀ (st' : SchedState) (count' : ℕ) (now' : ℚ)
        (sel' : List (Fin (List.length ([] : List String)))),
        select_images_for_review st' [] count' now' sel' = []) :=
  c4_selection_shape ⟨[], [], []⟩ ["a", "b", "c"] 2 0 [⟨2, by decide⟩, ⟨0, by decide⟩]
    (by decide) ⟨by decide, by decide⟩

/-!
## The `/api/update_weight` handler (C9, C10)

`api_update_weight` (lines 556–589) dispatches on the request fields: a
truthy `familiarity` triggers `update_weight`, otherwise a present `weight`
triggers the raw assignment `review_system.weights[image_key] = float(weight)`
(line 585).  Both paths then persist and answer `{"status": "success"}`
(line 587); missing parameters answer `{"status": "error"}` (line 589).

`save_weights` (lines 253–294) wraps the file write in `try/except` and
only *prints* on failure (line 294); it never raises and never reports.
The success of the underlying write is modelled by `writeOk`; its only
observable effect is the log line.  The subject-name re-encoding of lines
568–578 is name bookkeeping outside the scheduling core; keys here are
taken as already encoded.
-/

/-- The observable outcome of `save_weights` (lines 253–294): the write
either succeeds silently or fails with nothing but a printed log line —
the caller sees no exception and no return value either way. -/
def save_weights_log (writeOk : Bool) : Option String :=
  if writeOk then Option.none else some "保存权重文件时出错"

/-- `api_update_weight` (lines 556–589): returns the final in-memory state,
the JSON `status` string of the response, and the log line (if any) of the
save attempt. -/
def api_update_weight (decay : ℚ) (writeOk : Bool) (st : SchedState)
    (image_key : Option String) (familiarity : Option String) (weight : Option ℚ)
    (now : ℚ) : SchedState × String × Option String :=
  match image_key with
  | Option.none => (st, "error", Option.none)
  | some key =>
    if familiarity.isSome || weight.isSome then
      match familiarity with
      | some f => (update_weight decay st key f now, "success", save_weights_log writeOk)
      | Option.none =>
        match weight with
        | some v => (set_raw_weight st key v, "success", save_weights_log writeOk)
        | Option.none => (st, "error", Option.none)
    else (st, "error", Option.none)

/-- Counterexample to C9: with the persistence write failing
(`writeOk = false`), recording a `familiar` feedback still answers
`"success"` — the failure is only printed, never signalled to the
collaborator. -/
theorem c9_counterexample :
    (api_update_weight 0.9 false ⟨[], [], []⟩ (some "S000/a") (some "familiar")
        Option.none 0).2.1 = "success"
    ∧ (api_update_weight 0.9 false ⟨[], [], []⟩ (some "S000/a") (some "familiar")
        Option.none 0).2.2 = some "保存权重文件时出错"
    ∧ "success" ≠ "error" :=
  ⟨rfl, rfl, by decide⟩

/-- C9 (amended): a persistence write failure is swallowed: for every state
and feedback, the handler applies the in-memory update and answers
`"success"` whether or not the write succeeded; the only trace of a failed
write is the printed log line. -/
theorem c9_swallowed_write_failure (decay : ℚ) (writeOk : Bool) (st : SchedState)
    (key f : String) (now : ℚ) :
    api_update_weight decay writeOk st (some key) (some f) Option.none now
      = (update_weight decay st key f now, "success", save_weights_log writeOk) :=
  rfl

/-!
## C10: mutation sites

The claim says `recordFeedback` is the only mutator (besides
creation-with-defaults).  The raw set-weight branch of `api_update_weight`
(line 585) refutes it: it overwrites an existing item's weight without
going through `update_weight`.  What does hold: `select_images_for_review`
and the read accessor never touch the maps, and the raw path touches only
the target key's weight.
-/

/-- `select_images_for_review` in state-passing form: the method reads the
maps (lines 441–445) but never writes them, so the state component of its
denotation is the input state. -/
def select_images_ST (st : SchedState) (images : List String) (count : ℕ) (now : ℚ)
    (sel : List (Fin images.length)) : SchedState × List String :=
  (st, select_images_for_review st images count now sel)

/-- The read accessor `api_get_weights` (lines 690–696) in state-passing
form: for each file it reports `weights.get(key, 1.0)` and writes
nothing. -/
def api_get_weights_ST (st : SchedState) (files : List String) :
    SchedState × List (String × ℚ) :=
  (st, files.map (fun f => (f, (dictLookup f st.weights).getD 1)))

/-- A one-item state used by the C10 refutation: `"S000/a"` already exists
with weight `1`. -/
def c10_state : SchedState :=
  { weights := [("S000/a", 1)]
    last_reviewed := [("S000/a", some 0)]
    review_intervals := [("S000/a", 2)] }

/-- Counterexample to C10: the raw set-weight branch of `api_update_weight`
(no `familiarity`, `weight = 50`) changes an *existing* item's stored
weight from `1` to `50` — a mutation of item state that is neither
`recordFeedback` nor creation-with-defaults. -/
theorem c10_counterexample :
    (api_update_weight 0.9 true c10_state (some "S000/a") Option.none (some 50) 0).1
        = set_raw_weight c10_state "S000/a" 50
    ∧ dictLookup "S000/a" (set_raw_weight c10_state "S000/a" 50).weights = some 50
    ∧ dictLookup "S000/a" c10_state.weights = some 1
    ∧ some (50 : ℚ) ≠ some 1 := by
  refine ⟨rfl, ?_, ?_, ?_⟩
  · rw [set_raw_weight]
    exact dictLookup_insert_self _ _ _
  · rfl
  · intro h
    rw [Option.some.injEq] at h
    norm_num at h
/-- C10 (amended): apart from `recordFeedback` (`update_weight`),
creation-with-defaults, and the raw set-weight escape hatch, no operation
mutates item state: `select_images_for_review` and the read accessor leave
the state untouched; the raw set-weight path changes only the target key's
weight, leaving its other fields and every other key's entries unchanged;
and `update_weight` itself touches no key but its target. -/
theorem c10_frame :
    (∀ (st : SchedState) (images : List String) (count : ℕ) (now : ℚ)
        (sel : List (Fin images.length)),
        (select_images_ST st images count now sel).1 = st)
    ∧ (∀ (st : SchedState) (files : List String), (api_get_weights_ST st files).1 = st)
    ∧ (∀ (st : SchedState) (k : String) (v : ℚ),
        (set_raw_weight st k v).last_reviewed = st.last_reviewed
        ∧ (set_raw_weight st k v).review_intervals = st.review_intervals)
    ∧ (∀ (st : SchedState) (k : String) (v : ℚ) (k' : String), k' ≠ k →
        dictLookup k' (set_raw_weight st k v).weights = dictLookup k' st.weights)
    ∧ (∀ (decay : ℚ) (st : SchedState) (k f : String) (now : ℚ) (k' : String), k' ≠ k →
        dictLookup k' (update_weight decay st k f now).weights = dictLookup k' st.weights
        ∧ dictLookup k' (update_weight decay st k f now).last_reviewed
            = dictLookup k' st.last_reviewed
        ∧ dictLookup k' (update_weight decay st k f now).review_intervals
            = dictLookup k' st.review_intervals) := by
  refine ⟨fun _ _ _ _ _ => rfl, fun _ _ => rfl, fun _ _ _ => ⟨rfl, rfl⟩, ?_, ?_⟩
  · intro st k v k' h
    rw [set_raw_weight]
    exact dictLookup_insert_ne _ _ _ _ h
  · intro decay st k f now k' h
    rw [update_weight]
    exact ⟨dictLookup_insert_ne _ _ _ _ h, dictLookup_insert_ne _ _ _ _ h,
      dictLookup_insert_ne _ _ _ _ h⟩

/-- Witness for `c10_frame` at concrete inputs, including the `k' ≠ k`
frame conditions at the keys `"S001/b" ≠ "S000/a"`. -/
theorem c10_witness :
    (select_images_ST c10_state ["a"] 1 0 [⟨0, by decide⟩]).1 = c10_state
    ∧ (api_get_weights_ST c10_state ["a"]).1 = c10_state
    ∧ ((set_raw_weight c10_state "S000/a" 50).last_reviewed = c10_state.last_reviewed
        ∧ (set_raw_weight c10_state "S000/a" 50).review_intervals
            = c10_state.review_intervals)
    ∧ dictLookup "S001/b" (set_raw_weight c10_state "S000/a" 50).weights
        = dictLookup "S001/b" c10_state.weights
    ∧ (dictLookup "S001/b" (update_weight 0.9 c10_state "S000/a" "familiar" 7).weights
        = dictLookup "S001/b" c10_state.weights
      ∧ dictLookup "S001/b" (update_weight 0.9 c10_state "S000/a" "familiar" 7).last_reviewed
        = dictLookup "S001/b" c10_state.last_reviewed
      ∧ dictLookup "S001/b" (update_weight 0.9 c10_state "S000/a" "familiar" 7).review_intervals
        = dictLookup "S001/b" c10_state.review_intervals) :=
  ⟨c10_frame.1 c10_state ["a"] 1 0 [⟨0, by decide⟩],
   c10_frame.2.1 c10_state ["a"],
   c10_frame.2.2.1 c10_state "S000/a" 50,
   c10_frame.2.2.2.1 c10_state "S000/a" 50 "S001/b" (by decide),
   c10_frame.2.2.2.2 0.9 c10_state "S000/a" "familiar" 7 "S001/b" (by decide)⟩

/-!
## Persistence layer (C6, C7)

`save_weights` (lines 253–294) serializes the three maps (plus the subject
mapping) to JSON, turning `datetime` values into `isoformat()` strings and
`None` into JSON null; `load_weights` (lines 159–251) reads them back,
turning ISO strings into `datetime` via `datetime.fromisoformat` (lines
220–227) and falling back to an empty store on a missing file, empty file,
invalid JSON, or non-dict content.

A `datetime` is a record of calendar fields.  `isoformat()` prints
`YYYY-MM-DDTHH:MM:SS` followed by `.ffffff` exactly when the microsecond
field is nonzero, and `fromisoformat` parses that same shape back; the
parser below models `datetime.fromisoformat` on the grammar `isoformat`
emits (on other strings the load code keeps the raw string, line 227).
-/

structure DateTime where
  year : ℕ
  month : ℕ
  day : ℕ
  hour : ℕ
  minute : ℕ
  second : ℕ
  microsecond : ℕ
deriving DecidableEq

/-- The field ranges of a Python `datetime` (day upper bound relaxed to 31;
the printer/parser needs only the digit-count bounds). -/
abbrev ValidDT (t : DateTime) : Prop :=
  1 ≤ t.year ∧ t.year ≤ 9999 ∧ 1 ≤ t.month ∧ t.month ≤ 12 ∧ 1 ≤ t.day ∧ t.day ≤ 31
  ∧ t.hour ≤ 23 ∧ t.minute ≤ 59 ∧ t.second ≤ 59 ∧ t.microsecond ≤ 999999

/-- `n` printed as exactly `k` decimal digits, zero-padded, most
significant first (the `%04d`-style padding of `isoformat`). -/
def padN : ℕ → ℕ → List Char
  | 0, _ => []
  | k + 1, n => Nat.digitChar (n / 10 ^ k) :: padN k (n % 10 ^ k)

/-- Numeric value of a digit character. -/
def c2n (c : Char) : ℕ := c.toNat - 48

/-- Read exactly `k` digit characters, accumulating their value onto
`acc`; fails on a non-digit or premature end. -/
def readD (acc : ℕ) : ℕ → List Char → Option (ℕ × List Char)
  | 0, l => some (acc, l)
  | _ + 1, [] => Option.none
  | k + 1, c :: l => if c.isDigit then readD (acc * 10 + c2n c) k l else Option.none

/-- Consume one expected character. -/
def expectChar (c : Char) : List Char → Option (List Char)
  | [] => Option.none
  | d :: l => if d = c then some l else Option.none

theorem c2n_digitChar (d : ℕ) (h : d < 10) : c2n (Nat.digitChar d) = d := by
  interval_cases d <;> rfl

theorem isDigit_digitChar (d : ℕ) (h : d < 10) : (Nat.digitChar d).isDigit = true := by
  interval_cases d <;> rfl

theorem expectChar_cons_self (c : Char) (l : List Char) : expectChar c (c :: l) = some l := by
  rw [expectChar, if_pos rfl]

theorem readD_padN (k : ℕ) : ∀ (n acc : ℕ) (rest : List Char), n < 10 ^ k →
    readD acc k (padN k n ++ rest) = some (acc * 10 ^ k + n, rest) := by
  induction k with
  | zero =>
    intro n acc rest h
    rw [pow_zero] at h
    interval_cases n
    rw [padN, List.nil_append, readD, pow_zero, Nat.mul_one, Nat.add_zero]
  | succ k ih =>
    intro n acc rest h
    have hdiv : n / 10 ^ k < 10 := by
      rw [Nat.div_lt_iff_lt_mul (Nat.pos_pow_of_pos k (by norm_num))]
      rw [pow_succ] at h
      omega
    rw [padN, List.cons_append, readD, if_pos (isDigit_digitChar _ hdiv),
      c2n_digitChar _ hdiv, ih _ _ _ (Nat.mod_lt _ (Nat.pos_pow_of_pos k (by norm_num)))]
    congr 2
    have hmod := Nat.div_add_mod n (10 ^ k)
    rw [pow_succ]
    nlinarith [hmod]

/-- `datetime.isoformat()` as a character list:
`YYYY-MM-DDTHH:MM:SS[.ffffff]`, the fraction present exactly when the
microsecond is nonzero. -/
def isoChars (t : DateTime) : List Char :=
  padN 4 t.year ++ '-' :: (padN 2 t.month ++ '-' :: (padN 2 t.day
    ++ 'T' :: (padN 2 t.hour ++ ':' :: (padN 2 t.minute ++ ':' :: (padN 2 t.second
    ++ (if t.microsecond = 0 then [] else '.' :: padN 6 t.microsecond))))))

/-- `datetime.isoformat()`. -/
def isoformat (t : DateTime) : String := String.mk (isoChars t)

/-- The tail of the ISO parse after the seconds field: either nothing, or a
dot followed by six microsecond digits. -/
def parse_tail (y mo d h mi s : ℕ) : List Char → Option DateTime
  | [] => some ⟨y, mo, d, h, mi, s, 0⟩
  | '.' :: l =>
    match readD 0 6 l with
    | some (u, []) => some ⟨y, mo, d, h, mi, s, u⟩
    | _ => Option.none
  | _ => Option.none

/-- `datetime.fromisoformat` on character lists, for the grammar emitted by
`isoChars`. -/
def parseIso (l : List Char) : Option DateTime :=
  (readD 0 4 l).bind (fun py =>
  (expectChar '-' py.2).bind (fun l1 =>
  (readD 0 2 l1).bind (fun pmo =>
  (expectChar '-' pmo.2).bind (fun l2 =>
  (readD 0 2 l2).bind (fun pd =>
  (expectChar 'T' pd.2).bind (fun l3 =>
  (readD 0 2 l3).bind (fun ph =>
  (expectChar ':' ph.2).bind (fun l4 =>
  (readD 0 2 l4).bind (fun pmi =>
  (expectChar ':' pmi.2).bind (fun l5 =>
  (readD 0 2 l5).bind (fun ps =>
  parse_tail py.1 pmo.1 pd.1 ph.1 pmi.1 ps.1 ps.2)))))))))))

/-- `datetime.fromisoformat` on strings. -/
def fromisoformat (s : String) : Option DateTime := parseIso s.data

theorem parseIso_isoChars (t : DateTime) (h : ValidDT t) : parseIso (isoChars t) = some t := by
  obtain ⟨y, mo, d, hr, mi, s, u⟩ := t
  obtain ⟨_, hy, _, hmo, _, hd, hh, hmi, hs, hu⟩ := h
  rw [isoChars, parseIso]
  rw [readD_padN 4 y 0 _ (by simp at hy ⊢; omega), Option.some_bind]
  rw [expectChar_cons_self, Option.some_bind]
  rw [readD_padN 2 mo 0 _ (by simp at hmo ⊢; omega), Option.some_bind]
  rw [expectChar_cons_self, Option.some_bind]
  rw [readD_padN 2 d 0 _ (by simp at hd ⊢; omega), Option.some_bind]
  rw [expectChar_cons_self, Option.some_bind]
  rw [readD_padN 2 hr 0 _ (by simp at hh ⊢; omega), Option.some_bind]
  rw [expectChar_cons_self, Option.some_bind]
  rw [readD_padN 2 mi 0 _ (by simp at hmi ⊢; omega), Option.some_bind]
  rw [expectChar_cons_self, Option.some_bind]
  rw [readD_padN 2 s 0 _ (by simp at hs ⊢; omega), Option.some_bind]
  simp only [Nat.zero_mul, Nat.zero_add]
  by_cases hu0 : u = 0
  · rw [if_pos hu0, parse_tail, hu0]
  · rw [if_neg hu0]
    have heq : parse_tail y mo d hr mi s ('.' :: padN 6 u)
        = match readD 0 6 (padN 6 u) with
          | some (v, []) => some ⟨y, mo, d, hr, mi, s, v⟩
          | _ => Option.none := rfl
    rw [heq, show padN 6 u = padN 6 u ++ [] from (List.append_nil _).symm,
      readD_padN 6 u 0 [] (by simp at hu ⊢; omega)]
    norm_num

theorem fromisoformat_isoformat (t : DateTime) (h : ValidDT t) :
    fromisoformat (isoformat t) = some t :=
  parseIso_isoChars t h

/-- The JSON values the weights file uses. -/
inductive JVal where
  | null
  | num (q : ℚ)
  | str (s : String)
  | obj (fields : List (String × JVal))

/-- An in-memory last-reviewed entry: Python `None`, a `datetime`, or a
string that failed `fromisoformat` on load and was kept as-is
(line 227). -/
inductive LRVal where
  | none
  | dt (t : DateTime)
  | raw (s : String)
deriving DecidableEq

/-- The persistent state of `ReviewSystem`: the subject mapping is carried
as raw JSON (the load code does not inspect it, line 204); the three item
maps are typed.  (The save code's `isinstance` filters, lines 270–280, are
identities on this typed state.) -/
structure StoreState where
  subject_mapping : JVal
  weights : List (String × ℚ)
  last_reviewed : List (String × LRVal)
  review_intervals : List (String × ℚ)

/-- The empty store every load-failure branch resets to (lines 185–188,
197–200, 230–233, 236–239, 242–245, 248–251). -/
def empty_store : StoreState :=
  { subject_mapping := JVal.obj []
    weights := []
    last_reviewed := []
    review_intervals := [] }

/-- Serialization of one last-reviewed entry (lines 262–267): a `datetime`
becomes its `isoformat()` string, anything else is written through
unchanged (`None` → null, a kept raw string → string). -/
def serialize_lr : LRVal → JVal
  | .none => JVal.null
  | .dt t => JVal.str (isoformat t)
  | .raw s => JVal.str s

/-- `ReviewSystem.save_weights` (lines 253–294): the JSON document with the
four top-level fields of line 283–288. -/
def save_weights (st : StoreState) : JVal :=
  JVal.obj
    [("subject_mapping", st.subject_mapping),
     ("weights", JVal.obj (st.weights.map (fun p => (p.1, JVal.num p.2)))),
     ("last_reviewed", JVal.obj (st.last_reviewed.map (fun p => (p.1, serialize_lr p.2)))),
     ("review_intervals", JVal.obj (st.review_intervals.map (fun p => (p.1, JVal.num p.2))))]

/-- What the loader finds in the backing file: no file at all, an empty
file, content that is not valid JSON, or a parsed JSON value. -/
inductive Backing where
  | missing
  | emptyFile
  | invalidJson
  | parsed (j : JVal)

/-- Numeric entries of a JSON object (the weights / intervals maps hold
numbers; `save_weights` writes nothing else for them). -/
def parse_num_entries : List (String × JVal) → List (String × ℚ)
  | [] => []
  | (k, JVal.num q) :: l => (k, q) :: parse_num_entries l
  | _ :: l => parse_num_entries l

/-- One loaded last-reviewed entry (lines 220–227): null stays `None`, a
string is parsed with `fromisoformat` and kept raw when parsing fails;
other JSON values do not occur in saved stores. -/
def parse_lr_entry : JVal → Option LRVal
  | JVal.null => some .none
  | JVal.str s =>
    some (match fromisoformat s with
          | some t => .dt t
          | Option.none => .raw s)
  | _ => Option.none

def parse_lr_entries : List (String × JVal) → List (String × LRVal)
  | [] => []
  | (k, v) :: l =>
    match parse_lr_entry v with
    | some w => (k, w) :: parse_lr_entries l
    | Option.none => parse_lr_entries l

/-- `ReviewSystem.load_weights` (lines 159–251): every failure branch
(missing file, empty file, invalid JSON, non-dict JSON) yields the empty
store; a dict is read field by field with `data.get(..., {})` defaults and
`isinstance(..., dict)` guards (lines 204–217), converting last-reviewed
strings via `fromisoformat` (lines 220–227).  The function is total: no
branch raises. -/
def load_weights : Backing → StoreState
  | .missing => empty_store
  | .emptyFile => empty_store
  | .invalidJson => empty_store
  | .parsed (JVal.obj fields) =>
    { subject_mapping := (dictLookup "subject_mapping" fields).getD (JVal.obj [])
      weights :=
        match dictLookup "weights" fields with
        | some (JVal.obj l) => parse_num_entries l
        | _ => []
      last_reviewed :=
        match dictLookup "last_reviewed" fields with
        | some (JVal.obj l) => parse_lr_entries l
        | _ => []
      review_intervals :=
        match dictLookup "review_intervals" fields with
        | some (JVal.obj l) => parse_num_entries l
        | _ => [] }
  | .parsed _ => empty_store

/-!
## C7: corrupt or missing stores load as empty
-/

/-- C7: loading a backing store that is missing, empty, invalid JSON, or
any non-dict JSON value (number, string, null) yields the empty store —
empty weights, last-reviewed and interval maps; `load_weights` is a total
function, so no exception reaches the caller. -/
theorem c7_corrupt_store_empty :
    load_weights .missing = empty_store
    ∧ load_weights .emptyFile = empty_store
    ∧ load_weights .invalidJson = empty_store
    ∧ (∀ q : ℚ, load_weights (.parsed (JVal.num q)) = empty_store)
    ∧ (∀ s : String, load_weights (.parsed (JVal.str s)) = empty_store)
    ∧ load_weights (.parsed JVal.null) = empty_store :=
  ⟨rfl, rfl, rfl, fun _ => rfl, fun _ => rfl, rfl⟩

/-!
## C6: save/load round-trip
-/

/-- Stores the round-trip claim ranges over: every last-reviewed entry is
either `None` or an in-range `datetime` (a kept raw string would have
failed `fromisoformat` once already and is outside the claim's store
contents). -/
def GoodLR : LRVal → Prop
  | .none => True
  | .dt t => ValidDT t
  | .raw _ => False

instance : ∀ v, Decidable (GoodLR v)
  | .none => isTrue trivial
  | .dt t => inferInstanceAs (Decidable (ValidDT t))
  | .raw _ => isFalse (fun h => h)

theorem parse_num_entries_roundtrip (l : List (String × ℚ)) :
    parse_num_entries (l.map (fun p => (p.1, JVal.num p.2))) = l := by
  induction l with
  | nil => rfl
  | cons p l ih =>
    rcases p with ⟨k, q⟩
    rw [List.map_cons, parse_num_entries, ih]

theorem parse_lr_entries_roundtrip (l : List (String × LRVal))
    (h : ∀ p ∈ l, GoodLR p.2) :
    parse_lr_entries (l.map (fun p => (p.1, serialize_lr p.2))) = l := by
  induction l with
  | nil => rfl
  | cons p l ih =>
    rcases p with ⟨k, v⟩
    have hv : GoodLR v := h (k, v) (List.mem_cons_self _ _)
    have hrest := ih (fun r hr => h r (List.mem_cons_of_mem _ hr))
    rcases v with _ | t | s
    · rw [List.map_cons, show serialize_lr .none = JVal.null from rfl, parse_lr_entries,
        show parse_lr_entry JVal.null = some .none from rfl, hrest]
    · rw [List.map_cons, show serialize_lr (.dt t) = JVal.str (isoformat t) from rfl,
        parse_lr_entries, parse_lr_entry, fromisoformat_isoformat t hv, hrest]
    · exact absurd hv (fun hh => hh)

/-- `load_weights ∘ save_weights` is the identity on stores whose
last-reviewed entries are `None` or valid datetimes. -/
theorem load_save_eq (st : StoreState) (h : ∀ p ∈ st.last_reviewed, GoodLR p.2) :
    load_weights (.parsed (save_weights st)) = st := by
  rw [save_weights, load_weights]
  rcases st with ⟨sm, w, lr, ri⟩
  rw [StoreState.mk.injEq]
  refine ⟨rfl, ?_, ?_, ?_⟩
  · rw [show dictLookup "weights"
        [("subject_mapping", sm),
         ("weights", JVal.obj (w.map (fun p => (p.1, JVal.num p.2)))),
         ("last_reviewed", JVal.obj (lr.map (fun p => (p.1, serialize_lr p.2)))),
         ("review_intervals", JVal.obj (ri.map (fun p => (p.1, JVal.num p.2))))]
      = some (JVal.obj (w.map (fun p => (p.1, JVal.num p.2)))) from by
        rw [dictLookup, if_neg (by decide), dictLookup, if_pos rfl]]
    exact parse_num_entries_roundtrip w
  · rw [show dictLookup "last_reviewed"
        [("subject_mapping", sm),
         ("weights", JVal.obj (w.map (fun p => (p.1, JVal.num p.2)))),
         ("last_reviewed", JVal.obj (lr.map (fun p => (p.1, serialize_lr p.2)))),
         ("review_intervals", JVal.obj (ri.map (fun p => (p.1, JVal.num p.2))))]
      = some (JVal.obj (lr.map (fun p => (p.1, serialize_lr p.2)))) from by
        rw [dictLookup, if_neg (by decide), dictLookup, if_neg (by decide),
          dictLookup, if_pos rfl]]
    exact parse_lr_entries_roundtrip lr h
  · rw [show dictLookup "review_intervals"
        [("subject_mapping", sm),
         ("weights", JVal.obj (w.map (fun p => (p.1, JVal.num p.2)))),
         ("last_reviewed", JVal.obj (lr.map (fun p => (p.1, serialize_lr p.2)))),
         ("review_intervals", JVal.obj (ri.map (fun p => (p.1, JVal.num p.2))))]
      = some (JVal.obj (ri.map (fun p => (p.1, JVal.num p.2)))) from by
        rw [dictLookup, if_neg (by decide), dictLookup, if_neg (by decide),
          dictLookup, if_neg (by decide), dictLookup, if_pos rfl]]
    exact parse_num_entries_roundtrip ri

/-- C6: for every store whose last-reviewed entries are `None` or valid
datetimes — including the boundary values `0.1`, `10.0`, `30.0` — saving
and reloading reproduces the identical `(weight, lastReviewed, interval)`
triple for every key, timestamps round-tripping losslessly through their
ISO-8601 string form (`fromisoformat ∘ isoformat = id`,
`fromisoformat_isoformat`). -/
theorem c6_round_trip (st : StoreState) (h : ∀ p ∈ st.last_reviewed, GoodLR p.2)
    (key : String) :
    dictLookup key (load_weights (.parsed (save_weights st))).weights
        = dictLookup key st.weights
    ∧ dictLookup key (load_weights (.parsed (save_weights st))).last_reviewed
        = dictLookup key st.last_reviewed
    ∧ dictLookup key (load_weights (.parsed (save_weights st))).review_intervals
        = dictLookup key st.review_intervals := by
  rw [load_save_eq st h]
  exact ⟨rfl, rfl, rfl⟩

/-- A concrete store exercising the claim's boundary values: weight `0.1`
and `10.0`, interval `30.0` and `0.1`, one never-reviewed item and one
reviewed at a concrete microsecond-bearing datetime. -/
def c6_store : StoreState :=
  { subject_mapping := JVal.obj []
    weights := [("S000/a", 0.1), ("S000/b", 10)]
    last_reviewed := [("S000/a", LRVal.none), ("S000/b", LRVal.dt ⟨2026, 10, 12, 3, 4, 5, 6⟩)]
    review_intervals := [("S000/a", 30), ("S000/b", 0.1)] }

/-- Witness for `c6_round_trip` on `c6_store` at key `"S000/b"`. -/
theorem c6_witness :
    dictLookup "S000/b" (load_weights (.parsed (save_weights c6_store))).weights
        = dictLookup "S000/b" c6_store.weights
    ∧ dictLookup "S000/b" (load_weights (.parsed (save_weights c6_store))).last_reviewed
        = dictLookup "S000/b" c6_store.last_reviewed
    ∧ dictLookup "S000/b" (load_weights (.parsed (save_weights c6_store))).review_intervals
        = dictLookup "S000/b" c6_store.review_intervals :=
  c6_round_trip c6_store
    (by
      intro p hp
      simp only [c6_store] at hp
      rw [List.mem_cons, List.mem_singleton] at hp
      rcases hp with hp | hp <;> subst hp <;> exact (by decide))
    "S000/b"
